import Mathlib

set_option autoImplicit false

/-!
Verification of the `simpleprocessor` metrics aggregator and the `resilient`
circuit-breaker middleware of the otel-custom-processor-demo repository.

The aggregator (myprocessor/processor.go, and its storage-enabled variant in
the repository's blog post) keeps `aggregations : map[string]int64`, keyed by
the `work.type` attribute of incoming Sum data points.  `ConsumeMetrics`
accumulates under a mutex and forwards nothing; a periodic `flush` first calls
`saveStateLocked` (checkpoint), then, if the map is non-empty, builds one
cumulative sum metric with one data point per group and hands it to the next
consumer.  `loadState` reads the checkpoint (storage extension or local file)
and `json.Unmarshal`s it back into the map.

The middleware (mymiddleware) wraps a `sony/gobreaker` circuit breaker around
an `http.RoundTripper` and around gRPC unary/stream client interceptors.

Go `int64` arithmetic wraps; we model values as `Int` reduced by `wrap64`.
-/

/-- Two's-complement wraparound of Go `int64` addition: reduce an unbounded
integer into the range `[-2^63, 2^63)`. -/
def wrap64 (z : Int) : Int :=
  (z + 9223372036854775808) % 18446744073709551616 - 9223372036854775808

/-- `wrap64` is the identity on values already in `int64` range. -/
theorem wrap64_eq_self {z : Int} (h1 : -9223372036854775808 ≤ z)
    (h2 : z ≤ 9223372036854775807) : wrap64 z = z := by
  unfold wrap64
  omega

/-- Wrapping an already-wrapped left summand is the same as wrapping once:
iterated `int64` addition computes the wrapped exact sum. -/
theorem wrap64_add_left (x y : Int) : wrap64 (wrap64 x + y) = wrap64 (x + y) := by
  unfold wrap64
  omega

/-- `wrap64` lands in `int64` range. -/
theorem wrap64_range (z : Int) :
    -9223372036854775808 ≤ wrap64 z ∧ wrap64 z ≤ 9223372036854775807 := by
  unfold wrap64
  omega

/-! ## pdata model

Only the parts of `pmetric` / `pcommon` the processor reads.  Attribute maps
(`pcommon.Map`) have unique keys and string values here; `Get` is lookup. -/

/-- A `pmetric.NumberDataPoint`: its attribute map, its integer value
(`IntValue`, a Go `int64`), and its start timestamp (`StartTimestamp`,
`0` when never set — the processor never sets it). -/
structure NumberDataPoint where
  attributes : List (String × String)
  intValue : Int
  startTimestamp : Int := 0
deriving DecidableEq, Repr

/-- `pmetric.MetricType`. -/
inductive MetricType where
  | empty | gauge | sum | histogram | exponentialHistogram | summary
deriving DecidableEq, Repr

/-- `pmetric.AggregationTemporality`. -/
inductive AggregationTemporality where
  | unspecified | delta | cumulative
deriving DecidableEq, Repr

/-- A `pmetric.Metric`: the fields the processor reads or writes. -/
structure Metric where
  name : String := ""
  unit : String := ""
  type : MetricType
  isMonotonic : Bool := false
  temporality : AggregationTemporality := .unspecified
  dataPoints : List NumberDataPoint := []
deriving DecidableEq, Repr

/-- A `pmetric.ScopeMetrics`. -/
structure ScopeMetrics where
  scopeName : String := ""
  metrics : List Metric
deriving DecidableEq, Repr

/-- A `pmetric.ResourceMetrics`. -/
structure ResourceMetrics where
  scopeMetrics : List ScopeMetrics
deriving DecidableEq, Repr

/-- A `pmetric.Metrics` batch. -/
structure Metrics where
  resourceMetrics : List ResourceMetrics
deriving DecidableEq, Repr

/-- `dp.Attributes().Get(key)`: lookup in the (unique-key) attribute map. -/
def lookupAttr : List (String × String) → String → Option String
  | [], _ => none
  | (k', v) :: rest, k => if k' = k then some v else lookupAttr rest k

/-! ## The aggregation map

Go's `map[string]int64` modelled as an association list with unique keys
(all writes go through `mapAdd` / `mapSet`, which never duplicate a key). -/

/-- The processor's `aggregations` field. -/
abbrev AggMap : Type := List (String × Int)

/-- Go map read `m[k]` (present or not). -/
def mapGet : AggMap → String → Option Int
  | [], _ => none
  | (k', v) :: rest, k => if k' = k then some v else mapGet rest k

/-- Go map read with the zero value for a missing key (`m[k]` on the right of
`+=` yields `0` when `k` is absent). -/
def mapGetD (m : AggMap) (k : String) (d : Int) : Int :=
  (mapGet m k).getD d

/-- Go `m[k] += v` on an `int64` map: add with two's-complement wraparound,
inserting the key (with old value `0`) when absent. -/
def mapAdd : AggMap → String → Int → AggMap
  | [], k, v => [(k, wrap64 v)]
  | (k', v') :: rest, k, v =>
    if k' = k then (k', wrap64 (v' + v)) :: rest else (k', v') :: mapAdd rest k v

/-- Go `m[k] = v`: replace or insert. -/
def mapSet : AggMap → String → Int → AggMap
  | [], k, v => [(k, v)]
  | (k', v') :: rest, k, v =>
    if k' = k then (k', v) :: rest else (k', v') :: mapSet rest k v

theorem mapGet_mapAdd_self (m : AggMap) (k : String) (v : Int) :
    mapGet (mapAdd m k v) k = some (wrap64 (mapGetD m k 0 + v)) := by
  induction m with
  | nil => simp [mapAdd, mapGet, mapGetD]
  | cons hd tl ih =>
    obtain ⟨k', v'⟩ := hd
    by_cases hk : k' = k
    · subst hk
      simp [mapAdd, mapGet, mapGetD]
    · simp [mapAdd, mapGet, mapGetD, hk] at ih ⊢
      exact ih

theorem mapGet_mapAdd_ne (m : AggMap) {k k' : String} (v : Int) (h : k ≠ k') :
    mapGet (mapAdd m k' v) k = mapGet m k := by
  have h' : ¬ (k' = k) := fun hh => h hh.symm
  induction m with
  | nil => simp [mapAdd, mapGet, h']
  | cons hd tl ih =>
    obtain ⟨k'', v''⟩ := hd
    by_cases hk : k'' = k'
    · subst hk
      simp [mapAdd, mapGet, h']
    · by_cases hk2 : k'' = k
      · subst hk2
        simp [mapAdd, mapGet, hk]
      · simp [mapAdd, mapGet, hk, hk2]
        exact ih

/-! ## The simple processor (simpleprocessor, storage-enabled variant)

State of the `simpleProcessor` struct.  The logger, the `next` consumer and
the mutex are not data; the mutex serialises `ConsumeMetrics`, `flush`,
`loadState` and `saveState`, so each is modelled as an atomic step. -/

/-- The `simpleProcessor` struct fields that carry data. -/
structure SimpleProcessor where
  aggregations : AggMap
  checkpointFile : String
  hasStorageClient : Bool
  doneClosed : Bool := false
deriving DecidableEq, Repr

/-- `newProcessor`: empty aggregation map, no storage client yet. -/
def newProcessor (checkpointFile : String) : SimpleProcessor :=
  { aggregations := [], checkpointFile := checkpointFile,
    hasStorageClient := false }

/-- One data point of the inner loop of `ConsumeMetrics`: read `work.type`;
if absent, skip; otherwise `p.aggregations[workType.Str()] += dp.IntValue()`. -/
def ingestDP (m : AggMap) (dp : NumberDataPoint) : AggMap :=
  match lookupAttr dp.attributes "work.type" with
  | some workType => mapAdd m workType dp.intValue
  | none => m

/-- The `metric.Type() == pmetric.MetricTypeSum` branch: fold over the sum's
data points; any other metric type is ignored. -/
def consumeMetric (m : AggMap) (metric : Metric) : AggMap :=
  if metric.type = .sum then metric.dataPoints.foldl ingestDP m else m

/-- Loop over one `ScopeMetrics`. -/
def consumeScope (m : AggMap) (sm : ScopeMetrics) : AggMap :=
  sm.metrics.foldl consumeMetric m

/-- Loop over one `ResourceMetrics`. -/
def consumeResource (m : AggMap) (rm : ResourceMetrics) : AggMap :=
  rm.scopeMetrics.foldl consumeScope m

/-- The full triple loop of `ConsumeMetrics` on the aggregation map. -/
def ingestBatch (m : AggMap) (md : Metrics) : AggMap :=
  md.resourceMetrics.foldl consumeResource m

/-- `ConsumeMetrics`: accumulates under the mutex, swallows the batch
(forwards nothing to `p.next`) and returns `nil`.  Result: the new processor
state, the returned Go error, and the list of batches handed downstream. -/
def consumeMetricsStep (p : SimpleProcessor) (md : Metrics) :
    SimpleProcessor × Option String × List Metrics :=
  ({ p with aggregations := ingestBatch p.aggregations md }, none, [])

/-! ## Checkpoint persistence

`json.Marshal` of a `map[string]int64` cannot fail and produces a JSON
object of integer fields; `json.Unmarshal` of such an object succeeds and
decodes every field.  A malformed payload makes `json.Unmarshal` return an
error, but Go's decoder is not atomic: it still sets into the map every
entry it manages to decode before or around the failure — syntactically
invalid bytes decode nothing, while a well-bracketed object with one
type-mismatched field decodes the other fields (and the zero value for the
mismatched one) and then reports an UnmarshalTypeError.  The codec is
modelled at that contract: a payload is a well-formed record, or a
malformed payload tagged with the entries the decoder sets before its
error. -/

/-- A persisted checkpoint payload: either a well-formed JSON object of
`int64` fields, or malformed bytes together with the entries Go's
`json.Unmarshal` still sets into the target map while failing (empty for
syntactically invalid bytes; e.g. the fields around a type-mismatched one
for a well-bracketed object). -/
inductive CheckpointPayload where
  | record (entries : List (String × Int))
  | malformed (decoded : List (String × Int))
deriving DecidableEq, Repr

/-- `json.Marshal(p.aggregations)`: always the well-formed record of the
map's key/value pairs — and nothing else: no timestamp of any kind. -/
def jsonMarshalAggs (m : AggMap) : CheckpointPayload :=
  .record m

/-- `json.Unmarshal(data, &p.aggregations)`: the entries it sets into the
map, and whether it returns an error. -/
def jsonUnmarshalAggs : CheckpointPayload → List (String × Int) × Bool
  | .record entries => (entries, false)
  | .malformed decoded => (decoded, true)

/-- Whether `json.Unmarshal` reports an error for this payload. -/
def jsonUnmarshalErrored (payload : CheckpointPayload) : Bool :=
  (jsonUnmarshalAggs payload).2

/-- `json.Unmarshal` into an existing (non-nil) Go map sets each decoded
entry into it, keeping entries not mentioned by the payload. -/
def mergeEntries (m : AggMap) (entries : List (String × Int)) : AggMap :=
  entries.foldl (fun a kv => mapSet a kv.1 kv.2) m

/-- Outcome of reading the checkpoint (storage `Get` or `os.ReadFile`). -/
inductive ReadResult where
  | notFound
  | readError
  | found (payload : CheckpointPayload)
deriving DecidableEq, Repr

/-- The tail of `loadState`: `json.Unmarshal(data, &p.aggregations)`
mutates the map (it sets every entry it decodes, even when it fails); its
error, if any, is only logged. -/
def applyUnmarshal (p : SimpleProcessor) (payload : CheckpointPayload) :
    SimpleProcessor :=
  { p with aggregations := mergeEntries p.aggregations (jsonUnmarshalAggs payload).1 }

/-- `loadState`: read from the storage client when present, else from the
checkpoint file when configured, else do nothing.  A read error or a missing
record leaves the state untouched; a well-formed record is unmarshalled. -/
def loadState (p : SimpleProcessor) (r : ReadResult) : SimpleProcessor :=
  if p.hasStorageClient then
    match r with
    | .found payload => applyUnmarshal p payload
    | _ => p
  else if p.checkpointFile ≠ "" then
    match r with
    | .found payload => applyUnmarshal p payload
    | _ => p
  else p

/-- How `Start` resolves the optional storage extension from the host. -/
inductive StorageSetup where
  | noStorage
  | storageFound
  | storageMissing
  | wrongKind
  | clientError
deriving DecidableEq, Repr

/-- `Start`: resolve the storage extension (any failure there aborts startup
with an error), then `loadState`, then start the flush loop.  The read
outcome `r` is what the configured backend returns. -/
def startStep (p : SimpleProcessor) (setup : StorageSetup) (r : ReadResult) :
    Except String SimpleProcessor :=
  match setup with
  | .storageMissing => .error "storage extension not found"
  | .wrongKind => .error "extension is not a storage extension"
  | .clientError => .error "failed to get storage client"
  | .noStorage => .ok (loadState { p with hasStorageClient := false } r)
  | .storageFound => .ok (loadState { p with hasStorageClient := true } r)

/-! ## Flush -/

/-- Externally visible actions of one `flush` call, in program order. -/
inductive FlushEvent where
  | checkpointWrite (payload : CheckpointPayload) (ok : Bool)
  | send (md : Metrics)
deriving DecidableEq, Repr

/-- `saveStateLocked`: nothing to do without a storage client and without a
checkpoint file; otherwise marshal (infallible for this map type) and write
the payload to the storage client or the file.  `writeOk` is the backend's
verdict; a failed write is only logged. -/
def saveStateLockedEvents (p : SimpleProcessor) (writeOk : Bool) :
    List FlushEvent :=
  if ¬p.hasStorageClient ∧ p.checkpointFile = "" then []
  else [.checkpointWrite (jsonMarshalAggs p.aggregations) writeOk]

/-- The single output batch `flush` builds: one resource, one scope named
"simple-aggregator", one monotonic cumulative sum metric
"work_done_batched" with one data point per group.  No start timestamp is
ever set, so every data point keeps the zero value. -/
def buildFlushBatch (m : AggMap) : Metrics :=
  { resourceMetrics := [
      { scopeMetrics := [
          { scopeName := "simple-aggregator",
            metrics := [
              { name := "work_done_batched",
                unit := "1",
                type := .sum,
                isMonotonic := true,
                temporality := .cumulative,
                dataPoints := m.map fun kv =>
                  { attributes := [("work.type", kv.1)],
                    intValue := kv.2, startTimestamp := 0 } } ] } ] } ] }

/-- `flush`: under the mutex, first `saveStateLocked`, then, if the map is
empty, stop; otherwise build the batch and hand it to `p.next` (a send
failure is only logged; the aggregations are never reset).  Returns the new
state and the visible events in order. -/
def flushStep (p : SimpleProcessor) (writeOk : Bool) :
    SimpleProcessor × List FlushEvent :=
  let ev := saveStateLockedEvents p writeOk
  if p.aggregations.isEmpty then (p, ev)
  else (p, ev ++ [.send (buildFlushBatch p.aggregations)])

/-! ## Circuit-breaker middleware (mymiddleware)

The `sony/gobreaker` core is an external library; its `Execute` either
rejects (open state / half-open overrun) without running the unit of work,
or runs it once and passes its result through.  The admission decision is a
parameter; the repository's code is the two adapters around `Execute`. -/

/-- The gRPC status codes the middleware mentions (plus `ok` for
completeness). -/
inductive GrpcCode where
  | ok | cancelledCode | unknownCode | deadlineExceeded | resourceExhausted
  | internalCode | unavailable
deriving DecidableEq, Repr

/-- The Go error values that flow through the adapters. -/
inductive GoErr where
  /-- An ordinary transport-level error (timeout, connection refused, …). -/
  | transportErr (msg : String)
  /-- `fmt.Errorf("HTTP %d: %s", resp.StatusCode, resp.Status)` built by the
  round tripper's unit of work for a server-error response. -/
  | httpStatusFailure (statusCode : Nat) (statusText : String)
  /-- `gobreaker.ErrOpenState`. -/
  | breakerOpenSentinel
  /-- `gobreaker.ErrTooManyRequests`. -/
  | tooManyRequestsSentinel
  /-- `fmt.Errorf("%w: %v", ErrCircuitBreakerOpen, err)`: wraps the package's
  exported sentinel `ErrCircuitBreakerOpen`, so `errors.Is` detects it. -/
  | circuitBreakerOpenWrap (detail : String)
  /-- A gRPC status error (`status.Error` / an error `status.FromError`
  understands), carrying its code and message. -/
  | grpcStatus (code : GrpcCode) (msg : String)
deriving DecidableEq, Repr

/-- `err.Error()` for the two gobreaker sentinels (their messages in the
library), used by `fmt.Sprintf("%v", err)`. -/
def goErrMessage : GoErr → String
  | .breakerOpenSentinel => "circuit breaker is open"
  | .tooManyRequestsSentinel => "too many requests"
  | .transportErr m => m
  | .httpStatusFailure c t => "HTTP " ++ toString c ++ ": " ++ t
  | .circuitBreakerOpenWrap d => "circuit breaker is open: " ++ d
  | .grpcStatus _ m => m

/-- `errors.Is(err, ErrCircuitBreakerOpen)`: true exactly for errors wrapping
the package's sentinel. -/
def errorsIsCircuitBreakerOpen : GoErr → Bool
  | .circuitBreakerOpenWrap _ => true
  | _ => false

/-- The breaker's admission decision for one call. -/
inductive BreakerDecision where
  /-- Closed, or half-open with capacity: the unit of work runs. -/
  | allow
  /-- Open: reject with `gobreaker.ErrOpenState`. -/
  | rejectOpen
  /-- Half-open at `MaxRequests`: reject with `gobreaker.ErrTooManyRequests`. -/
  | rejectTooMany
deriving DecidableEq, Repr

/-- `cb.Execute`: reject with the corresponding sentinel, or run the unit of
work once and return its result unchanged. -/
def cbExecute {α : Type} (d : BreakerDecision) (unit : Except GoErr α) :
    Except GoErr α :=
  match d with
  | .rejectOpen => .error .breakerOpenSentinel
  | .rejectTooMany => .error .tooManyRequestsSentinel
  | .allow => unit

/-- gobreaker bookkeeping (default `IsSuccessful`): the executed call counts
as a failure exactly when the unit of work returned a non-nil error. -/
def breakerCountsFailure {α : Type} (unit : Except GoErr α) : Bool :=
  match unit with
  | .error _ => true
  | .ok _ => false

/-- Outcome of the wrapped `http.RoundTripper`'s real call. -/
inductive HttpTransportOutcome where
  /-- Transport-level error: no response was delivered. -/
  | failed (msg : String)
  /-- A response was delivered with this status code and status text. -/
  | responded (statusCode : Nat) (statusText : String)
deriving DecidableEq, Repr

/-- The unit of work `circuitBreakerRoundTripper.RoundTrip` passes to
`Execute`: forward transport errors; close the body and fail with
`fmt.Errorf("HTTP %d: %s", …)` on a 5xx status; otherwise succeed with the
response. -/
def httpUnit : HttpTransportOutcome → Except GoErr (Nat × String)
  | .failed m => .error (.transportErr m)
  | .responded statusCode statusText =>
    if 500 ≤ statusCode then .error (.httpStatusFailure statusCode statusText)
    else .ok (statusCode, statusText)

/-- `circuitBreakerRoundTripper.RoundTrip`: run the unit through the breaker;
translate the two gobreaker sentinels into an error wrapping
`ErrCircuitBreakerOpen`; pass every other error through; return the response
on success. -/
def roundTrip (d : BreakerDecision) (tr : HttpTransportOutcome) :
    Except GoErr (Nat × String) :=
  match cbExecute d (httpUnit tr) with
  | .error e =>
    if e = .breakerOpenSentinel ∨ e = .tooManyRequestsSentinel then
      .error (.circuitBreakerOpenWrap (goErrMessage e))
    else .error e
  | .ok resp => .ok resp

/-- Whether a `RoundTrip` result is detected by the caller as a breaker
rejection via `errors.Is(err, ErrCircuitBreakerOpen)`. -/
def roundTripBreakerFlagged : Except GoErr (Nat × String) → Bool
  | .error e => errorsIsCircuitBreakerOpen e
  | .ok _ => false

/-- Outcome of the real `invoker` call inside the unary interceptor. -/
inductive GrpcCallOutcome where
  | success
  /-- An error `status.FromError` understands, with its code. -/
  | failedStatus (code : GrpcCode) (msg : String)
  /-- A non-status error. -/
  | failedPlain (msg : String)
deriving DecidableEq, Repr

/-- The unit of work of `unaryInterceptor`: every error from the invoker is
returned to the breaker unchanged (the status-code inspection in the source
returns the error on both branches), success returns `(nil, nil)`. -/
def unaryUnit : GrpcCallOutcome → Except GoErr Unit
  | .success => .ok ()
  | .failedStatus code msg => .error (.grpcStatus code msg)
  | .failedPlain msg => .error (.transportErr msg)

/-- `unaryInterceptor`: run the invoker through the breaker; translate the
two gobreaker sentinels into `status.Error(codes.Unavailable,
fmt.Sprintf("circuit breaker is open: %v", err))`; pass every other error
through; `none` is the nil error. -/
def unaryInterceptor (d : BreakerDecision) (call : GrpcCallOutcome) :
    Option GoErr :=
  match cbExecute d (unaryUnit call) with
  | .ok _ => none
  | .error e =>
    if e = .breakerOpenSentinel ∨ e = .tooManyRequestsSentinel then
      some (.grpcStatus .unavailable ("circuit breaker is open: " ++ goErrMessage e))
    else some e

/-- Outcome of the real `streamer` call inside the stream interceptor
(stream handles are identified by a number; Go additionally allows the
degenerate `(nil, nil)` return). -/
inductive GrpcStreamOutcome where
  | established (handle : Nat)
  | establishedNil
  | failedStatus (code : GrpcCode) (msg : String)
  | failedPlain (msg : String)
deriving DecidableEq, Repr

/-- The unit of work of `streamInterceptor`: errors pass through unchanged
(as in the unary case); success captures the stream handle (possibly nil). -/
def streamUnit : GrpcStreamOutcome → Except GoErr (Option Nat)
  | .established h => .ok (some h)
  | .establishedNil => .ok none
  | .failedStatus code msg => .error (.grpcStatus code msg)
  | .failedPlain msg => .error (.transportErr msg)

/-- `streamInterceptor`: like the unary interceptor, plus the final guard
returning `status.Error(codes.Internal, "stream is nil")` when `Execute`
succeeded but the captured stream is nil. -/
def streamInterceptor (d : BreakerDecision) (call : GrpcStreamOutcome) :
    Except GoErr Nat :=
  match cbExecute d (streamUnit call) with
  | .error e =>
    if e = .breakerOpenSentinel ∨ e = .tooManyRequestsSentinel then
      .error (.grpcStatus .unavailable ("circuit breaker is open: " ++ goErrMessage e))
    else .error e
  | .ok none => .error (.grpcStatus .internalCode "stream is nil")
  | .ok (some h) => .ok h

/-! ## Helper lemmas about ingestion -/

/-- The grouping label of a data point, as `ConsumeMetrics` reads it. -/
def pointKey (dp : NumberDataPoint) : Option String :=
  lookupAttr dp.attributes "work.type"

/-- Whether a data point carries the grouping label. -/
def hasWorkType (dp : NumberDataPoint) : Bool :=
  (pointKey dp).isSome

/-- The sum data points one metric contributes to ingestion. -/
def sumPointsOfMetric (metric : Metric) : List NumberDataPoint :=
  if metric.type = .sum then metric.dataPoints else []

/-- The sum data points of one `ScopeMetrics`. -/
def sumPointsOfScope (sm : ScopeMetrics) : List NumberDataPoint :=
  (sm.metrics.map sumPointsOfMetric).flatten

/-- The sum data points of one `ResourceMetrics`. -/
def sumPointsOfResource (rm : ResourceMetrics) : List NumberDataPoint :=
  (rm.scopeMetrics.map sumPointsOfScope).flatten

/-- All sum data points of a batch, in traversal order. -/
def allSumPoints (md : Metrics) : List NumberDataPoint :=
  (md.resourceMetrics.map sumPointsOfResource).flatten

theorem consumeMetric_eq_fold (m : AggMap) (metric : Metric) :
    consumeMetric m metric = (sumPointsOfMetric metric).foldl ingestDP m := by
  unfold consumeMetric sumPointsOfMetric
  by_cases h : metric.type = .sum <;> simp [h]

theorem foldl_consumeMetric_eq (ms : List Metric) (m : AggMap) :
    ms.foldl consumeMetric m
      = ((ms.map sumPointsOfMetric).flatten).foldl ingestDP m := by
  induction ms generalizing m with
  | nil => rfl
  | cons hd tl ih =>
    simp only [List.foldl_cons, List.map_cons, List.flatten_cons, List.foldl_append]
    rw [consumeMetric_eq_fold, ih]

theorem consumeScope_eq_fold (m : AggMap) (sm : ScopeMetrics) :
    consumeScope m sm = (sumPointsOfScope sm).foldl ingestDP m :=
  foldl_consumeMetric_eq sm.metrics m

theorem foldl_consumeScope_eq (sms : List ScopeMetrics) (m : AggMap) :
    sms.foldl consumeScope m
      = ((sms.map sumPointsOfScope).flatten).foldl ingestDP m := by
  induction sms generalizing m with
  | nil => rfl
  | cons hd tl ih =>
    simp only [List.foldl_cons, List.map_cons, List.flatten_cons, List.foldl_append]
    rw [consumeScope_eq_fold, ih]

theorem consumeResource_eq_fold (m : AggMap) (rm : ResourceMetrics) :
    consumeResource m rm = (sumPointsOfResource rm).foldl ingestDP m :=
  foldl_consumeScope_eq rm.scopeMetrics m

theorem foldl_consumeResource_eq (rms : List ResourceMetrics) (m : AggMap) :
    rms.foldl consumeResource m
      = ((rms.map sumPointsOfResource).flatten).foldl ingestDP m := by
  induction rms generalizing m with
  | nil => rfl
  | cons hd tl ih =>
    simp only [List.foldl_cons, List.map_cons, List.flatten_cons, List.foldl_append]
    rw [consumeResource_eq_fold, ih]

/-- `ConsumeMetrics`'s triple loop is the fold of `ingestDP` over all sum
data points of the batch. -/
theorem ingestBatch_eq_fold (m : AggMap) (md : Metrics) :
    ingestBatch m md = (allSumPoints md).foldl ingestDP m :=
  foldl_consumeResource_eq md.resourceMetrics m

/-- Data points without the grouping label are skipped: filtering them out
does not change the fold. -/
theorem foldl_ingestDP_filter (pts : List NumberDataPoint) (m : AggMap) :
    pts.foldl ingestDP m = (pts.filter hasWorkType).foldl ingestDP m := by
  induction pts generalizing m with
  | nil => rfl
  | cons hd tl ih =>
    by_cases h : hasWorkType hd
    · simp only [List.foldl_cons, List.filter_cons, h, if_pos]
      exact ih (ingestDP m hd)
    · have hskip : ingestDP m hd = m := by
        unfold hasWorkType at h
        unfold ingestDP pointKey at *
        cases hl : lookupAttr hd.attributes "work.type" with
        | none => rfl
        | some k => rw [hl] at h; simp at h
      simp only [List.foldl_cons, List.filter_cons, h, if_neg, hskip,
        Bool.false_eq_true, ite_false]
      exact ih m

/-! ## Key-wise sums and monotonicity of ingestion -/

/-- Sum of the values all points carrying key `k` contribute (exact, in ℤ). -/
def keySumPts : List NumberDataPoint → String → Int
  | [], _ => 0
  | dp :: rest, k =>
    (if pointKey dp = some k then dp.intValue else 0) + keySumPts rest k

/-- Exact sum of all the points' values (in ℤ). -/
def sumIntValues (pts : List NumberDataPoint) : Int :=
  (pts.map NumberDataPoint.intValue).sum

theorem keySumPts_nonneg (pts : List NumberDataPoint) (k : String)
    (h : ∀ dp ∈ pts, 0 ≤ dp.intValue) : 0 ≤ keySumPts pts k := by
  induction pts with
  | nil => simp [keySumPts]
  | cons hd tl ih =>
    have h1 : 0 ≤ hd.intValue := h hd (by simp)
    have h2 : 0 ≤ keySumPts tl k := ih fun dp hdp => h dp (by simp [hdp])
    unfold keySumPts
    by_cases hk : pointKey hd = some k <;> simp [hk] <;> omega

theorem mapGetD_mapAdd_self (m : AggMap) (k : String) (v : Int) :
    mapGetD (mapAdd m k v) k 0 = wrap64 (mapGetD m k 0 + v) := by
  unfold mapGetD
  rw [mapGet_mapAdd_self]
  rfl

theorem mapGetD_mapAdd_ne (m : AggMap) {k k' : String} (v : Int) (h : k ≠ k') :
    mapGetD (mapAdd m k' v) k 0 = mapGetD m k 0 := by
  unfold mapGetD
  rw [mapGet_mapAdd_ne m v h]

/-- Ingesting a list of non-negative data points never lowers the value of a
key already present, provided the exact accumulated total of every key stays
below the `int64` maximum (no wraparound). -/
theorem foldl_ingestDP_monotone :
    ∀ (pts : List NumberDataPoint) (m : AggMap),
    (∀ k, -9223372036854775808 ≤ mapGetD m k 0) →
    (∀ dp ∈ pts, 0 ≤ dp.intValue) →
    (∀ k, mapGetD m k 0 + keySumPts pts k ≤ 9223372036854775807) →
    ∀ k v₀, mapGet m k = some v₀ →
      ∃ v₁, mapGet (pts.foldl ingestDP m) k = some v₁ ∧ v₀ ≤ v₁ := by
  intro pts
  induction pts with
  | nil =>
    intro m _ _ _ k v₀ hget
    exact ⟨v₀, hget, le_refl v₀⟩
  | cons dp rest ih =>
    intro m hLow hNN hHead k v₀ hget
    have hvdp : 0 ≤ dp.intValue := hNN dp (by simp)
    have hrestNN : ∀ q ∈ rest, 0 ≤ q.intValue := fun q hq => hNN q (by simp [hq])
    cases hpk : pointKey dp with
    | none =>
      have hskip : ingestDP m dp = m := by
        unfold ingestDP
        unfold pointKey at hpk
        rw [hpk]
      have hHead' : ∀ k', mapGetD m k' 0 + keySumPts rest k' ≤ 9223372036854775807 := by
        intro k'
        have := hHead k'
        simp only [keySumPts] at this
        rw [hpk] at this
        simpa using this
      simpa [List.foldl_cons, hskip] using ih m hLow hrestNN hHead' k v₀ hget
    | some kdp =>
      have hstep : ingestDP m dp = mapAdd m kdp dp.intValue := by
        unfold ingestDP
        unfold pointKey at hpk
        rw [hpk]
      set m' := mapAdd m kdp dp.intValue with hm'
      set a := mapGetD m kdp 0 with ha
      have hksum_cons : keySumPts (dp :: rest) kdp = dp.intValue + keySumPts rest kdp := by
        simp only [keySumPts]
        rw [hpk]
        simp
      have hrest_nonneg : 0 ≤ keySumPts rest kdp := keySumPts_nonneg rest kdp hrestNN
      have hav_up : a + dp.intValue ≤ 9223372036854775807 := by
        have := hHead kdp
        rw [hksum_cons] at this
        omega
      have hav_low : -9223372036854775808 ≤ a + dp.intValue := by
        have := hLow kdp
        omega
      have hwrap : wrap64 (a + dp.intValue) = a + dp.intValue :=
        wrap64_eq_self hav_low hav_up
      have hself : mapGetD m' kdp 0 = a + dp.intValue := by
        rw [hm', mapGetD_mapAdd_self, ← ha, hwrap]
      have hLow' : ∀ k', -9223372036854775808 ≤ mapGetD m' k' 0 := by
        intro k'
        by_cases hk : k' = kdp
        · subst hk
          rw [hself]
          omega
        · rw [hm', mapGetD_mapAdd_ne m dp.intValue hk]
          exact hLow k'
      have hHead' : ∀ k', mapGetD m' k' 0 + keySumPts rest k' ≤ 9223372036854775807 := by
        intro k'
        by_cases hk : k' = kdp
        · subst hk
          rw [hself]
          have := hHead k'
          rw [hksum_cons] at this
          omega
        · rw [hm', mapGetD_mapAdd_ne m dp.intValue hk]
          have := hHead k'
          simp only [keySumPts] at this
          have hne : ¬ (pointKey dp = some k') := by
            rw [hpk]
            intro hc
            exact hk (by injection hc with hh; exact hh.symm) 
          rw [if_neg hne] at this
          omega
      by_cases hk : k = kdp
      · subst hk
        have hgetm' : mapGet m' k = some (a + dp.intValue) := by
          rw [hm', mapGet_mapAdd_self, ← ha, hwrap]
        obtain ⟨v₁, hv₁, hle⟩ := ih m' hLow' hrestNN hHead' k (a + dp.intValue) hgetm'
        refine ⟨v₁, by simpa [List.foldl_cons, hstep, ← hm'] using hv₁, ?_⟩
        have hav₀ : a = v₀ := by
          rw [ha]
          unfold mapGetD
          rw [hget]
          rfl
        omega
      · have hgetm' : mapGet m' k = some v₀ := by
          rw [hm', mapGet_mapAdd_ne m dp.intValue hk, hget]
        obtain ⟨v₁, hv₁, hle⟩ := ih m' hLow' hrestNN hHead' k v₀ hgetm'
        exact ⟨v₁, by simpa [List.foldl_cons, hstep, ← hm'] using hv₁, hle⟩

/-! ## Checkpoint round-trip lemmas -/

theorem mapGet_append_of_none (m l : AggMap) (k : String)
    (h : mapGet m k = none) : mapGet (m ++ l) k = mapGet l k := by
  induction m with
  | nil => rfl
  | cons hd tl ih =>
    obtain ⟨k', v'⟩ := hd
    by_cases hk : k' = k
    · subst hk
      simp [mapGet] at h
    · simp [mapGet, hk] at h ⊢
      exact ih h

theorem mapSet_append_of_none (m : AggMap) (k : String) (v : Int)
    (h : mapGet m k = none) : mapSet m k v = m ++ [(k, v)] := by
  induction m with
  | nil => rfl
  | cons hd tl ih =>
    obtain ⟨k', v'⟩ := hd
    by_cases hk : k' = k
    · subst hk
      simp [mapGet] at h
    · simp [mapGet, hk] at h
      simp [mapSet, hk, ih h]

/-- Unmarshalling entries with fresh, pairwise distinct keys into a map
appends them verbatim. -/
theorem mergeEntries_of_fresh :
    ∀ (es : List (String × Int)) (m : AggMap),
    (∀ kv ∈ es, mapGet m kv.1 = none) → (es.map Prod.fst).Nodup →
    mergeEntries m es = m ++ es := by
  intro es
  induction es with
  | nil => intro m _ _; simp [mergeEntries]
  | cons kv rest ih =>
    intro m hfresh hnodup
    obtain ⟨k, v⟩ := kv
    have hset : mapSet m k v = m ++ [(k, v)] :=
      mapSet_append_of_none m k v (hfresh (k, v) (by simp))
    rw [List.map_cons, List.nodup_cons] at hnodup
    have hknotin : k ∉ rest.map Prod.fst := hnodup.1
    have hfresh' : ∀ kv' ∈ rest, mapGet (m ++ [(k, v)]) kv'.1 = none := by
      intro kv' hkv'
      have h1 : mapGet m kv'.1 = none := hfresh kv' (by simp [hkv'])
      rw [mapGet_append_of_none m [(k, v)] kv'.1 h1]
      have hne : ¬ (k = kv'.1) := by
        intro hc
        exact hknotin (by rw [hc]; exact List.mem_map_of_mem Prod.fst hkv')
      simp [mapGet, hne]
    have hnodup' : (rest.map Prod.fst).Nodup := hnodup.2
    calc mergeEntries m ((k, v) :: rest)
        = mergeEntries (mapSet m k v) rest := rfl
      _ = mergeEntries (m ++ [(k, v)]) rest := by rw [hset]
      _ = (m ++ [(k, v)]) ++ rest := ih (m ++ [(k, v)]) hfresh' hnodup'
      _ = m ++ ((k, v) :: rest) := by simp

/-- Loading a marshalled map into an empty map restores it verbatim. -/
theorem mergeEntries_empty (es : List (String × Int))
    (hnodup : (es.map Prod.fst).Nodup) : mergeEntries [] es = es := by
  have h := mergeEntries_of_fresh es [] (by intro kv _; rfl) hnodup
  simpa using h

/-- `flush` never changes the processor state (in particular it never resets
the aggregation map). -/
theorem flushStep_state_id (p : SimpleProcessor) (w : Bool) :
    (flushStep p w).1 = p := by
  unfold flushStep
  by_cases h : p.aggregations.isEmpty <;> simp [h]

/-- Folding points that all carry the same key `k` over a singleton map at
`k` accumulates their wrapped exact sum. -/
theorem foldl_ingestDP_same_key :
    ∀ (pts : List NumberDataPoint) (k : String) (x : Int),
    (∀ dp ∈ pts, pointKey dp = some k) →
    pts.foldl ingestDP [(k, wrap64 x)] = [(k, wrap64 (x + sumIntValues pts))] := by
  intro pts
  induction pts with
  | nil =>
    intro k x _
    simp [sumIntValues]
  | cons dp rest ih =>
    intro k x hkeys
    have hdp : pointKey dp = some k := hkeys dp (by simp)
    have hstep : ingestDP [(k, wrap64 x)] dp
        = [(k, wrap64 (x + dp.intValue))] := by
      unfold ingestDP
      unfold pointKey at hdp
      rw [hdp]
      simp [mapAdd, wrap64_add_left]
    have hrest : ∀ q ∈ rest, pointKey q = some k := fun q hq => hkeys q (by simp [hq])
    calc (dp :: rest).foldl ingestDP [(k, wrap64 x)]
        = rest.foldl ingestDP [(k, wrap64 (x + dp.intValue))] := by
          rw [List.foldl_cons, hstep]
      _ = [(k, wrap64 (x + dp.intValue + sumIntValues rest))] :=
          ih k (x + dp.intValue) hrest
      _ = [(k, wrap64 (x + sumIntValues (dp :: rest)))] := by
          simp [sumIntValues]
          ring_nf

/-- A batch holding one resource, one scope, one sum metric with the given
data points (the shape the repository's test client produces). -/
def mkSingleSumBatch (dps : List NumberDataPoint) : Metrics :=
  { resourceMetrics := [
      { scopeMetrics := [
          { metrics := [ { type := .sum, dataPoints := dps } ] } ] } ] }

theorem ingestBatch_mkSingleSumBatch (m : AggMap) (dps : List NumberDataPoint) :
    ingestBatch m (mkSingleSumBatch dps) = dps.foldl ingestDP m := by
  simp [ingestBatch, mkSingleSumBatch, consumeResource, consumeScope, consumeMetric]

/-- Generic: a fold whose every step is the identity returns its start. -/
theorem foldl_eq_of_id {β : Type} (f : AggMap → β → AggMap) :
    ∀ (l : List β) (m : AggMap), (∀ x ∈ l, ∀ m', f m' x = m') → l.foldl f m = m := by
  intro l
  induction l with
  | nil => intro m _; rfl
  | cons hd tl ih =>
    intro m h
    rw [List.foldl_cons, h hd (by simp) m]
    exact ih m fun x hx m' => h x (by simp [hx]) m'

/-- A batch with no sum metric leaves the aggregation map unchanged. -/
theorem ingestBatch_no_sum (m : AggMap) (md : Metrics)
    (h : ∀ rm ∈ md.resourceMetrics, ∀ sm ∈ rm.scopeMetrics,
        ∀ metric ∈ sm.metrics, metric.type ≠ .sum) :
    ingestBatch m md = m := by
  unfold ingestBatch
  refine foldl_eq_of_id consumeResource md.resourceMetrics m ?_
  intro rm hrm m1
  unfold consumeResource
  refine foldl_eq_of_id consumeScope rm.scopeMetrics m1 ?_
  intro sm hsm m2
  unfold consumeScope
  refine foldl_eq_of_id consumeMetric sm.metrics m2 ?_
  intro metric hmetric m3
  unfold consumeMetric
  simp [h rm hrm sm hsm metric hmetric]

/-! ## Claim theorems -/

/-- C6: for every HTTP call admitted by the breaker whose transport delivers
a response (no transport-level error), the breaker books a failure exactly
when the status code is a server error (>= 500); any response below 500 —
informational or client-error included — is booked as a success. -/
theorem http_server_error_counts_as_breaker_failure
    (statusCode : Nat) (statusText : String) :
    breakerCountsFailure
        (cbExecute .allow (httpUnit (.responded statusCode statusText)))
      = decide (500 ≤ statusCode) := by
  unfold cbExecute httpUnit breakerCountsFailure
  by_cases h : 500 ≤ statusCode <;> simp [h]

/-- C8: for every input batch, `ConsumeMetrics` returns a nil error, hands
nothing to the downstream consumer, and its effect on the aggregation map is
the fold over exactly those sum data points that carry the `work.type`
label — points lacking the label are skipped and contribute nothing. -/
theorem ingest_returns_nil_forwards_nothing_skips_unlabeled
    (p : SimpleProcessor) (md : Metrics) :
    consumeMetricsStep p md
      = ({ p with aggregations := ingestBatch p.aggregations md },
          (none : Option String), ([] : List Metrics)) ∧
    ingestBatch p.aggregations md
      = ((allSumPoints md).filter hasWorkType).foldl ingestDP p.aggregations := by
  refine ⟨rfl, ?_⟩
  rw [ingestBatch_eq_fold, foldl_ingestDP_filter]

/-- C9: a flush on an empty aggregation map performs at most the checkpoint
write and never builds or sends a batch downstream. -/
theorem flush_on_empty_state_sends_nothing
    (p : SimpleProcessor) (w : Bool) (h : p.aggregations = []) :
    flushStep p w = (p, saveStateLockedEvents p w) ∧
    ∀ md, FlushEvent.send md ∉ (flushStep p w).2 := by
  have hempty : p.aggregations.isEmpty = true := by rw [h]; rfl
  constructor
  · unfold flushStep
    simp [hempty]
  · intro md
    unfold flushStep saveStateLockedEvents
    by_cases hc : ¬(p.hasStorageClient = true) ∧ p.checkpointFile = "" <;>
      simp [hempty, hc]

/-- Witness for C9 at a concrete empty processor. -/
theorem flush_on_empty_state_sends_nothing_witness :
    (newProcessor "ck.json").aggregations = [] ∧
    (flushStep (newProcessor "ck.json") true
        = (newProcessor "ck.json", saveStateLockedEvents (newProcessor "ck.json") true) ∧
      ∀ md, FlushEvent.send md ∉ (flushStep (newProcessor "ck.json") true).2) :=
  ⟨rfl, flush_on_empty_state_sends_nothing (newProcessor "ck.json") true rfl⟩

/-- C2: when a checkpoint target is configured, every flush writes the
marshalled current state to it as its first visible action, before any send;
and a failed checkpoint write (`writeOk = false`) still does not prevent the
downstream send from being attempted when the state is non-empty. -/
theorem flush_checkpoint_write_precedes_send
    (p : SimpleProcessor) (writeOk : Bool)
    (h : p.hasStorageClient = true ∨ p.checkpointFile ≠ "") :
    (flushStep p writeOk).2
      = FlushEvent.checkpointWrite (jsonMarshalAggs p.aggregations) writeOk ::
          (if p.aggregations.isEmpty then []
           else [FlushEvent.send (buildFlushBatch p.aggregations)]) ∧
    (p.aggregations ≠ [] →
      FlushEvent.send (buildFlushBatch p.aggregations) ∈ (flushStep p writeOk).2) := by
  have hc : ¬(p.hasStorageClient = false ∧ p.checkpointFile = "") := by
    rcases h with h | h
    · intro hcon
      rw [h] at hcon
      exact Bool.noConfusion hcon.1
    · exact fun hcon => h hcon.2
  constructor
  · unfold flushStep saveStateLockedEvents
    by_cases he : p.aggregations.isEmpty <;> simp [hc, he]
  · intro hne
    have he : ¬(p.aggregations.isEmpty = true) := by
      simpa [List.isEmpty_iff] using hne
    unfold flushStep saveStateLockedEvents
    simp [hc, he]

/-- Witness for C2: non-empty state, storage client configured, and a
failing checkpoint write. -/
theorem flush_checkpoint_write_precedes_send_witness :
    ((⟨[("a", 1)], "", true, false⟩ : SimpleProcessor).hasStorageClient = true ∨
      (⟨[("a", 1)], "", true, false⟩ : SimpleProcessor).checkpointFile ≠ "") ∧
    ((flushStep (⟨[("a", 1)], "", true, false⟩ : SimpleProcessor) false).2
      = FlushEvent.checkpointWrite
          (jsonMarshalAggs (⟨[("a", 1)], "", true, false⟩ : SimpleProcessor).aggregations) false ::
          (if (⟨[("a", 1)], "", true, false⟩ : SimpleProcessor).aggregations.isEmpty then []
           else [FlushEvent.send (buildFlushBatch
              (⟨[("a", 1)], "", true, false⟩ : SimpleProcessor).aggregations)]) ∧
      ((⟨[("a", 1)], "", true, false⟩ : SimpleProcessor).aggregations ≠ [] →
        FlushEvent.send (buildFlushBatch
            (⟨[("a", 1)], "", true, false⟩ : SimpleProcessor).aggregations)
          ∈ (flushStep (⟨[("a", 1)], "", true, false⟩ : SimpleProcessor) false).2)) :=
  ⟨Or.inl rfl,
    flush_checkpoint_write_precedes_send (⟨[("a", 1)], "", true, false⟩ : SimpleProcessor)
      false (Or.inl rfl)⟩

/-- C10: `ConsumeMetrics` mutates nothing but the aggregation map, and a
batch containing no Sum metric leaves the processor completely unchanged. -/
theorem ingest_mutates_only_aggregations (p : SimpleProcessor) (md : Metrics) :
    ((consumeMetricsStep p md).1.checkpointFile = p.checkpointFile ∧
     (consumeMetricsStep p md).1.hasStorageClient = p.hasStorageClient ∧
     (consumeMetricsStep p md).1.doneClosed = p.doneClosed ∧
     (consumeMetricsStep p md).1.aggregations = ingestBatch p.aggregations md) ∧
    ((∀ rm ∈ md.resourceMetrics, ∀ sm ∈ rm.scopeMetrics,
        ∀ metric ∈ sm.metrics, metric.type ≠ .sum) →
      consumeMetricsStep p md = (p, none, [])) := by
  refine ⟨⟨rfl, rfl, rfl, rfl⟩, ?_⟩
  intro h
  unfold consumeMetricsStep
  rw [ingestBatch_no_sum p.aggregations md h]

/-- Witness for C10 at a gauge-only batch. -/
theorem ingest_mutates_only_aggregations_witness :
    (∀ rm ∈ (Metrics.mk [ResourceMetrics.mk [ScopeMetrics.mk ""
        [{ type := .gauge,
           dataPoints := [{ attributes := [("work.type", "a")], intValue := 5 }] }]]]).resourceMetrics,
      ∀ sm ∈ rm.scopeMetrics, ∀ metric ∈ sm.metrics, metric.type ≠ .sum) ∧
    consumeMetricsStep (newProcessor "ck.json")
        (Metrics.mk [ResourceMetrics.mk [ScopeMetrics.mk ""
          [{ type := .gauge,
             dataPoints := [{ attributes := [("work.type", "a")], intValue := 5 }] }]]])
      = (newProcessor "ck.json", none, []) :=
  ⟨by decide,
    (ingest_mutates_only_aggregations (newProcessor "ck.json")
      (Metrics.mk [ResourceMetrics.mk [ScopeMetrics.mk ""
        [{ type := .gauge,
           dataPoints := [{ attributes := [("work.type", "a")], intValue := 5 }] }]]])).2
      (by decide)⟩

/-- C7 counterexample: a malformed record that Go's decoder partially
decodes — the bytes of a well-bracketed JSON object whose field "a" is 1
and whose field "b" holds a string instead of an integer, so `Unmarshal`
sets a = 1 and the zero value for b and returns an UnmarshalTypeError —
does not behave as if no record existed: startup succeeds but the state
after loading is non-empty, not the empty state the claim requires. -/
theorem malformed_checkpoint_partial_decode_counterexample :
    startStep (newProcessor "ck.json") .storageFound
        (.found (.malformed [("a", 1), ("b", 0)]))
      = .ok (⟨[("a", 1), ("b", 0)], "ck.json", true, false⟩ : SimpleProcessor) ∧
    ([("a", 1), ("b", 0)] : AggMap) ≠ [] ∧
    jsonUnmarshalErrored (.malformed [("a", 1), ("b", 0)]) = true := by
  refine ⟨rfl, by decide, rfl⟩

/-- C7 (amended): loading a malformed checkpoint record reports the
unmarshal error and never aborts startup, but it is treated as absence only
up to what the decoder already wrote: starting from the empty state, the
state after loading consists of exactly the entries `json.Unmarshal`
decoded before failing — so a malformed record that decodes no entries
(for example syntactically invalid bytes) behaves exactly as if no record
existed. -/
theorem malformed_checkpoint_error_nonfatal_partial_decode
    (p : SimpleProcessor) (setup : StorageSetup) (ds : List (String × Int))
    (hEmpty : p.aggregations = [])
    (hSetup : setup = .storageFound ∨
      (setup = .noStorage ∧ p.checkpointFile ≠ "")) :
    jsonUnmarshalErrored (.malformed ds) = true ∧
    (∃ p', startStep p setup (.found (.malformed ds)) = .ok p' ∧
        p'.aggregations = mergeEntries [] ds) ∧
    startStep p setup (.found (.malformed [])) = startStep p setup .notFound := by
  refine ⟨rfl, ?_, ?_⟩
  · rcases hSetup with h | ⟨h, hcf⟩ <;> subst h
    · refine ⟨_, rfl, ?_⟩
      show mergeEntries p.aggregations ds = mergeEntries [] ds
      rw [hEmpty]
    · refine ⟨_, rfl, ?_⟩
      simp [loadState, applyUnmarshal, jsonUnmarshalAggs, hcf, hEmpty]
  · rcases hSetup with h | ⟨h, hcf⟩ <;> subst h <;>
      by_cases hc : p.checkpointFile = "" <;>
        simp [startStep, loadState, applyUnmarshal, jsonUnmarshalAggs,
          mergeEntries, hc]

/-- Witness for C7: a freshly constructed processor with the storage
extension configured, loading a malformed payload that partially decodes
to a = 1, b = 0. -/
theorem malformed_checkpoint_error_nonfatal_partial_decode_witness :
    ((newProcessor "ck.json").aggregations = [] ∧
      (StorageSetup.storageFound = .storageFound ∨
        (StorageSetup.storageFound = .noStorage ∧
          (newProcessor "ck.json").checkpointFile ≠ ""))) ∧
    (jsonUnmarshalErrored (.malformed [("a", 1), ("b", 0)]) = true ∧
      (∃ p', startStep (newProcessor "ck.json") .storageFound
          (.found (.malformed [("a", 1), ("b", 0)])) = .ok p' ∧
          p'.aggregations = mergeEntries [] [("a", 1), ("b", 0)]) ∧
      startStep (newProcessor "ck.json") .storageFound (.found (.malformed []))
        = startStep (newProcessor "ck.json") .storageFound .notFound) :=
  ⟨⟨rfl, Or.inl rfl⟩,
    malformed_checkpoint_error_nonfatal_partial_decode (newProcessor "ck.json")
      .storageFound [("a", 1), ("b", 0)] rfl (Or.inl rfl)⟩

/-- C3 counterexample: two data points with the same group key whose exact
sum exceeds the `int64` maximum; the accumulated value is the wrapped sum
(-2), not the exact sum of the two point values. -/
theorem grouped_sum_int64_overflow_counterexample :
    (consumeMetricsStep (newProcessor "")
        (mkSingleSumBatch
          [{ attributes := [("work.type", "a"), ("work.id", "1")],
             intValue := 9223372036854775807 },
           { attributes := [("work.type", "a"), ("work.id", "2")],
             intValue := 9223372036854775807 }])).1.aggregations
      = [("a", -2)] ∧
    (9223372036854775807 : Int) + 9223372036854775807 ≠ -2 := by
  constructor <;> decide

/-- C3 (amended): ingesting any non-empty sequence of sum data points that
all carry the same group key — whatever their other, high-cardinality
attributes — produces exactly one entry for that key, whose value is the
exact sum of the point values reduced by signed 64-bit wraparound (equal to
the exact sum whenever it fits in `int64`); and flush leaves the
accumulated state unchanged. -/
theorem grouped_accumulation_exact_sum_wrapped
    (dps : List NumberDataPoint) (k cf : String)
    (hne : dps ≠ [])
    (hkey : ∀ dp ∈ dps, pointKey dp = some k) :
    (consumeMetricsStep (newProcessor cf) (mkSingleSumBatch dps)).1.aggregations
        = [(k, wrap64 (sumIntValues dps))] ∧
    ∀ w, (flushStep (consumeMetricsStep (newProcessor cf) (mkSingleSumBatch dps)).1 w).1
        = (consumeMetricsStep (newProcessor cf) (mkSingleSumBatch dps)).1 := by
  constructor
  · show ingestBatch [] (mkSingleSumBatch dps) = [(k, wrap64 (sumIntValues dps))]
    rw [ingestBatch_mkSingleSumBatch]
    cases dps with
    | nil => exact absurd rfl hne
    | cons dp rest =>
      have hdp : pointKey dp = some k := hkey dp (by simp)
      have hstep : ingestDP [] dp = [(k, wrap64 dp.intValue)] := by
        unfold ingestDP
        unfold pointKey at hdp
        rw [hdp]
        rfl
      have hrest : ∀ q ∈ rest, pointKey q = some k := fun q hq => hkey q (by simp [hq])
      rw [List.foldl_cons, hstep, foldl_ingestDP_same_key rest k dp.intValue hrest]
      have : dp.intValue + sumIntValues rest = sumIntValues (dp :: rest) := by
        simp [sumIntValues]
      rw [this]
  · intro w
    exact flushStep_state_id _ w

/-- Witness for C3: three data points for group "manual" with three distinct
high-cardinality `work.id` attributes accumulate into the single entry
("manual", 9). -/
theorem grouped_accumulation_exact_sum_wrapped_witness :
    (([{ attributes := [("work.type", "manual"), ("work.id", "1")], intValue := 2 },
       { attributes := [("work.type", "manual"), ("work.id", "2")], intValue := 3 },
       { attributes := [("work.type", "manual"), ("work.id", "3")], intValue := 4 }]
        : List NumberDataPoint) ≠ [] ∧
      (∀ dp ∈ ([{ attributes := [("work.type", "manual"), ("work.id", "1")], intValue := 2 },
        { attributes := [("work.type", "manual"), ("work.id", "2")], intValue := 3 },
        { attributes := [("work.type", "manual"), ("work.id", "3")], intValue := 4 }]
          : List NumberDataPoint), pointKey dp = some "manual")) ∧
    ((consumeMetricsStep (newProcessor "")
        (mkSingleSumBatch
          [{ attributes := [("work.type", "manual"), ("work.id", "1")], intValue := 2 },
           { attributes := [("work.type", "manual"), ("work.id", "2")], intValue := 3 },
           { attributes := [("work.type", "manual"), ("work.id", "3")], intValue := 4 }])).1.aggregations
        = [("manual", wrap64 (sumIntValues
            [{ attributes := [("work.type", "manual"), ("work.id", "1")], intValue := 2 },
             { attributes := [("work.type", "manual"), ("work.id", "2")], intValue := 3 },
             { attributes := [("work.type", "manual"), ("work.id", "3")], intValue := 4 }]))] ∧
      ∀ w, (flushStep (consumeMetricsStep (newProcessor "")
          (mkSingleSumBatch
            [{ attributes := [("work.type", "manual"), ("work.id", "1")], intValue := 2 },
             { attributes := [("work.type", "manual"), ("work.id", "2")], intValue := 3 },
             { attributes := [("work.type", "manual"), ("work.id", "3")], intValue := 4 }])).1 w).1
        = (consumeMetricsStep (newProcessor "")
          (mkSingleSumBatch
            [{ attributes := [("work.type", "manual"), ("work.id", "1")], intValue := 2 },
             { attributes := [("work.type", "manual"), ("work.id", "2")], intValue := 3 },
             { attributes := [("work.type", "manual"), ("work.id", "3")], intValue := 4 }])).1) :=
  ⟨⟨by decide, by decide⟩,
    grouped_accumulation_exact_sum_wrapped _ "manual" "" (by decide) (by decide)⟩

/-- C4 counterexample: a sum data point with a negative value (-3) for an
existing group lowers its accumulated value from 5 to 2, so ingestion is not
monotone as stated. -/
theorem negative_increment_lowers_value :
    mapGet ((consumeMetricsStep
        (⟨[("a", 5)], "", false, false⟩ : SimpleProcessor)
        (mkSingleSumBatch
          [{ attributes := [("work.type", "a")], intValue := -3 }])).1.aggregations) "a"
      = some 2 ∧ (2 : Int) < 5 := by
  constructor <;> decide

/-- C4 (amended): provided every ingested sum data point carries a
non-negative value and no group's exact accumulated total exceeds the
`int64` maximum, no operation lowers a group's accumulated value: ingest is
monotone per existing key, flush leaves the state unchanged, and a
checkpoint save followed by a reload restores the aggregations verbatim. -/
theorem monotone_value_under_nonneg_increments
    (p : SimpleProcessor) (md : Metrics) (w : Bool)
    (hLow : ∀ k, -9223372036854775808 ≤ mapGetD p.aggregations k 0)
    (hNN : ∀ dp ∈ allSumPoints md, 0 ≤ dp.intValue)
    (hHead : ∀ k, mapGetD p.aggregations k 0 + keySumPts (allSumPoints md) k
        ≤ 9223372036854775807)
    (hNodup : (p.aggregations.map Prod.fst).Nodup) :
    (∀ k v₀, mapGet p.aggregations k = some v₀ →
       ∃ v₁, mapGet ((consumeMetricsStep p md).1.aggregations) k = some v₁ ∧ v₀ ≤ v₁) ∧
    (flushStep p w).1 = p ∧
    (loadState { newProcessor p.checkpointFile with hasStorageClient := true }
        (.found (jsonMarshalAggs p.aggregations))).aggregations = p.aggregations := by
  refine ⟨?_, flushStep_state_id p w, ?_⟩
  · intro k v₀ hget
    have hres := foldl_ingestDP_monotone (allSumPoints md) p.aggregations
      hLow hNN hHead k v₀ hget
    show ∃ v₁, mapGet (ingestBatch p.aggregations md) k = some v₁ ∧ v₀ ≤ v₁
    rw [ingestBatch_eq_fold]
    exact hres
  · show (applyUnmarshal { newProcessor p.checkpointFile with hasStorageClient := true }
        (jsonMarshalAggs p.aggregations)).aggregations = p.aggregations
    unfold applyUnmarshal jsonMarshalAggs jsonUnmarshalAggs
    show mergeEntries [] p.aggregations = p.aggregations
    exact mergeEntries_empty p.aggregations hNodup

/-- Witness for C4: state ("a", 5) ingesting one point of value 7 for "a". -/
theorem monotone_value_under_nonneg_increments_witness :
    ((∀ k, -9223372036854775808 ≤
        mapGetD (⟨[("a", 5)], "", true, false⟩ : SimpleProcessor).aggregations k 0) ∧
     (∀ dp ∈ allSumPoints (mkSingleSumBatch
          [{ attributes := [("work.type", "a")], intValue := 7 }]), 0 ≤ dp.intValue) ∧
     (∀ k, mapGetD (⟨[("a", 5)], "", true, false⟩ : SimpleProcessor).aggregations k 0
        + keySumPts (allSumPoints (mkSingleSumBatch
            [{ attributes := [("work.type", "a")], intValue := 7 }])) k
        ≤ 9223372036854775807) ∧
     ((⟨[("a", 5)], "", true, false⟩ : SimpleProcessor).aggregations.map Prod.fst).Nodup) ∧
    ((∀ k v₀, mapGet (⟨[("a", 5)], "", true, false⟩ : SimpleProcessor).aggregations k
          = some v₀ →
        ∃ v₁, mapGet ((consumeMetricsStep (⟨[("a", 5)], "", true, false⟩ : SimpleProcessor)
            (mkSingleSumBatch
              [{ attributes := [("work.type", "a")], intValue := 7 }])).1.aggregations) k
          = some v₁ ∧ v₀ ≤ v₁) ∧
      (flushStep (⟨[("a", 5)], "", true, false⟩ : SimpleProcessor) false).1
        = (⟨[("a", 5)], "", true, false⟩ : SimpleProcessor) ∧
      (loadState { newProcessor (⟨[("a", 5)], "", true, false⟩ : SimpleProcessor).checkpointFile
            with hasStorageClient := true }
          (.found (jsonMarshalAggs
            (⟨[("a", 5)], "", true, false⟩ : SimpleProcessor).aggregations))).aggregations
        = (⟨[("a", 5)], "", true, false⟩ : SimpleProcessor).aggregations) :=
  ⟨⟨fun k => by
      by_cases hk : "a" = k <;> simp [mapGetD, mapGet, hk],
    by decide,
    fun k => by
      by_cases hk : "a" = k <;>
        simp [mapGetD, mapGet, allSumPoints, mkSingleSumBatch, sumPointsOfResource,
          sumPointsOfScope, sumPointsOfMetric, keySumPts, pointKey, lookupAttr, hk],
    by decide⟩,
   monotone_value_under_nonneg_increments (⟨[("a", 5)], "", true, false⟩ : SimpleProcessor)
     (mkSingleSumBatch [{ attributes := [("work.type", "a")], intValue := 7 }]) false
     (fun k => by by_cases hk : "a" = k <;> simp [mapGetD, mapGet, hk])
     (by decide)
     (fun k => by
       by_cases hk : "a" = k <;>
         simp [mapGetD, mapGet, allSumPoints, mkSingleSumBatch, sumPointsOfResource,
           sumPointsOfScope, sumPointsOfMetric, keySumPts, pointKey, lookupAttr, hk])
     (by decide)⟩

/-- C5 counterexample: the gRPC unary interceptor returns for a breaker-open
rejection the very same error value — a status error with code
`Unavailable` — that it returns for an admitted call failing with an
ordinary transport-level `Unavailable` status error carrying that message,
so no caller-side check can tell the two apart. -/
theorem grpc_rejection_indistinguishable_from_transport_error :
    unaryInterceptor .rejectOpen .success
      = unaryInterceptor .allow
          (.failedStatus .unavailable
            "circuit breaker is open: circuit breaker is open") ∧
    unaryInterceptor .rejectOpen .success
      = some (.grpcStatus .unavailable
          "circuit breaker is open: circuit breaker is open") := by
  constructor <;> decide

/-- C5 (amended): on a breaker rejection the HTTP round-tripper returns an
error wrapping the sentinel `ErrCircuitBreakerOpen`, which `errors.Is`
detects and which no admitted call ever produces; the gRPC interceptors
instead return a gRPC status error with code `Unavailable` — the same code
an ordinary transport-level failure (for example an unavailable server) can
carry through an admitted call — so for gRPC the rejection is distinguished
only by its message text, not by error type or status code. -/
theorem breaker_rejection_error_shape
    (d : BreakerDecision) (tr : HttpTransportOutcome)
    (call : GrpcCallOutcome) (sc : GrpcStreamOutcome)
    (hd : d = .rejectOpen ∨ d = .rejectTooMany) :
    (∃ msg, roundTrip d tr = .error (.circuitBreakerOpenWrap msg)) ∧
    roundTripBreakerFlagged (roundTrip .allow tr) = false ∧
    (∃ msg, unaryInterceptor d call = some (.grpcStatus .unavailable msg)) ∧
    (∃ msg, streamInterceptor d sc = .error (.grpcStatus .unavailable msg)) ∧
    (∀ code msg, unaryInterceptor .allow (.failedStatus code msg)
        = some (.grpcStatus code msg)) := by
  refine ⟨?_, ?_, ?_, ?_, ?_⟩
  · rcases hd with h | h <;> subst h <;> exact ⟨_, rfl⟩
  · cases tr with
    | failed m =>
      simp [roundTrip, cbExecute, httpUnit, roundTripBreakerFlagged,
        errorsIsCircuitBreakerOpen]
    | responded statusCode statusText =>
      by_cases h : 500 ≤ statusCode <;>
        simp [roundTrip, cbExecute, httpUnit, roundTripBreakerFlagged,
          errorsIsCircuitBreakerOpen, h]
  · rcases hd with h | h <;> subst h <;> exact ⟨_, rfl⟩
  · rcases hd with h | h <;> subst h <;> exact ⟨_, rfl⟩
  · intro code msg
    simp [unaryInterceptor, cbExecute, unaryUnit]

/-- Witness for C5 at a breaker-open rejection and concrete call shapes. -/
theorem breaker_rejection_error_shape_witness :
    (BreakerDecision.rejectOpen = .rejectOpen ∨
      BreakerDecision.rejectOpen = .rejectTooMany) ∧
    ((∃ msg, roundTrip .rejectOpen (.failed "connection refused")
        = .error (.circuitBreakerOpenWrap msg)) ∧
     roundTripBreakerFlagged (roundTrip .allow (.failed "connection refused")) = false ∧
     (∃ msg, unaryInterceptor .rejectOpen .success
        = some (.grpcStatus .unavailable msg)) ∧
     (∃ msg, streamInterceptor .rejectOpen (.established 7)
        = .error (.grpcStatus .unavailable msg)) ∧
     (∀ code msg, unaryInterceptor .allow (.failedStatus code msg)
        = some (.grpcStatus code msg))) :=
  ⟨Or.inl rfl,
    breaker_rejection_error_shape .rejectOpen (.failed "connection refused")
      .success (.established 7) (Or.inl rfl)⟩

/-- All start timestamps appearing in a batch, in traversal order. -/
def outputStartTimestamps (md : Metrics) : List Int :=
  ((md.resourceMetrics.map fun rm =>
      ((rm.scopeMetrics.map fun sm =>
          ((sm.metrics.map fun metric =>
              metric.dataPoints.map NumberDataPoint.startTimestamp).flatten))).flatten)).flatten

/-- C1: evaluation at the failing input.  Saving the state ("manual", 1000)
persists exactly the key/value record — the `CheckpointPayload.record`
constructor carries nothing but `(String, Int)` pairs, no start time of any
kind — and reloading it after a restart restores the keys and values; but
the batch flushed from the reloaded state carries the never-set zero start
timestamp, not a restored per-group epoch. -/
theorem checkpoint_persists_values_without_start_time :
    jsonMarshalAggs [("manual", 1000)] = CheckpointPayload.record [("manual", 1000)] ∧
    (loadState { newProcessor "ck.json" with hasStorageClient := true }
        (.found (jsonMarshalAggs [("manual", 1000)]))).aggregations
      = [("manual", 1000)] ∧
    outputStartTimestamps (buildFlushBatch
        (loadState { newProcessor "ck.json" with hasStorageClient := true }
          (.found (jsonMarshalAggs [("manual", 1000)]))).aggregations)
      = [0] := by
  refine ⟨rfl, ?_, ?_⟩ <;> decide
